import Mathlib

/-!
Shallow embedding of the webDJ audio engine (src/js/audioEngine.js,
src/js/utils.js) and its auto-mixer (AutoMixer class).

Times, positions, tempi and volumes are modelled as rationals; the
AudioContext clock is passed explicitly as a parameter named now.
The AudioBuffer of a deck is modelled by the flag hasBuffer together
with the stored duration.  Web-Audio node objects (gain nodes, filters,
analysers) carry no state that the verified claims depend on, except the
deck output gains, which are recomputed from deck volumes and the
crossfader position by updateCrossfaderGains; that computation is
modelled separately over the reals because it uses Math.cos.
-/

/-- Utils.clamp from src/js/utils.js: Math.min(Math.max(value, lo), hi). -/
def clamp (value lo hi : ℚ) : ℚ := min (max value lo) hi

/-- The two decks of the engine. -/
inductive DeckId where
  | A
  | B
deriving DecidableEq

/-- The other deck: used by sync (sourceDeck) and by AutoMixer.checkPosition. -/
def DeckId.other : DeckId → DeckId
  | .A => .B
  | .B => .A

/-- Per-deck state, from AudioEngine.createDeckState.  audioBuffer: null is
modelled by hasBuffer = false; node fields are omitted (see module header). -/
structure DeckState where
  hasBuffer : Bool
  isPlaying : Bool
  isPaused : Bool
  startTime : ℚ
  pauseTime : ℚ
  duration : ℚ
  tempo : ℚ
  volume : ℚ
  cuePoint : ℚ
  hotCues : List (Option ℚ)
  bpm : ℚ
deriving DecidableEq

/-- AudioEngine.createDeckState: the initial deck state. -/
def createDeckState : DeckState :=
  { hasBuffer := false
    isPlaying := false
    isPaused := false
    startTime := 0
    pauseTime := 0
    duration := 0
    tempo := 1
    volume := 1
    cuePoint := 0
    hotCues := [none, none, none, none]
    bpm := 0 }

/-- Engine state: the two decks and the crossfader position. -/
structure EngineState where
  deckA : DeckState
  deckB : DeckState
  crossfaderPosition : ℚ
deriving DecidableEq

/-- this.decks[deckId]. -/
def EngineState.deck (e : EngineState) : DeckId → DeckState
  | .A => e.deckA
  | .B => e.deckB

/-- Writing back this.decks[deckId] after a method mutated it. -/
def EngineState.setDeck (e : EngineState) : DeckId → DeckState → EngineState
  | .A, d => { e with deckA := d }
  | .B, d => { e with deckB := d }

/-- Events emitted by the engine that the verified claims observe. -/
inductive Event where
  | volumeChange (deckId : DeckId) (value : ℚ)
  | crossfaderChange (value : ℚ)
deriving DecidableEq

namespace AudioEngine

/-- AudioEngine.getPosition: current playback position in seconds. -/
def getPosition (e : EngineState) (deckId : DeckId) (now : ℚ) : ℚ :=
  let deck := e.deck deckId
  if !deck.hasBuffer then 0
  else if deck.isPaused || !deck.isPlaying then deck.pauseTime
  else min ((now - deck.startTime) * deck.tempo) deck.duration

/-- AudioEngine.play: start (or resume) playback of a deck.  The source node
is started at offset pauseTime and the clock anchor is set to
now - offset / tempo. -/
def play (e : EngineState) (deckId : DeckId) (now : ℚ) : EngineState :=
  let deck := e.deck deckId
  if !deck.hasBuffer then e
  else if deck.isPlaying && !deck.isPaused then e
  else e.setDeck deckId
    { deck with
      startTime := now - deck.pauseTime / deck.tempo
      isPlaying := true
      isPaused := false }

/-- AudioEngine.pause: save the current position and mark the deck paused. -/
def pause (e : EngineState) (deckId : DeckId) (now : ℚ) : EngineState :=
  let deck := e.deck deckId
  if !deck.isPlaying || deck.isPaused then e
  else e.setDeck deckId
    { deck with pauseTime := getPosition e deckId now, isPaused := true }

/-- AudioEngine.stop: reset the deck to its cue point. -/
def stop (e : EngineState) (deckId : DeckId) : EngineState :=
  let deck := e.deck deckId
  e.setDeck deckId
    { deck with
      isPlaying := false
      isPaused := false
      pauseTime := deck.cuePoint
      startTime := 0 }

/-- AudioEngine.seek: clamp the target to [0, duration], pause if the deck
was actively playing, set pauseTime, and resume if it was playing. -/
def seek (e : EngineState) (deckId : DeckId) (now position : ℚ) : EngineState :=
  let deck := e.deck deckId
  if !deck.hasBuffer then e
  else
    let p := clamp position 0 deck.duration
    let wasPlaying := deck.isPlaying && !deck.isPaused
    let e1 := if wasPlaying then pause e deckId now else e
    let e2 := e1.setDeck deckId { e1.deck deckId with pauseTime := p }
    if wasPlaying then play e2 deckId now else e2

/-- AudioEngine.setTempo: clamp the rate to [0.5, 1.5] and, if the deck is
actively playing, re-anchor pauseTime and startTime before storing the
new tempo. -/
def setTempo (e : EngineState) (deckId : DeckId) (now tempo : ℚ) : EngineState :=
  let deck := e.deck deckId
  let t := clamp tempo (1/2) (3/2)
  let deck1 :=
    if deck.isPlaying && !deck.isPaused then
      { deck with
        pauseTime := getPosition e deckId now
        startTime := now - getPosition e deckId now / t }
    else deck
  e.setDeck deckId { deck1 with tempo := t }

/-- AudioEngine.setVolume: store the clamped volume and emit the volumeChange
event carrying the original argument. -/
def setVolume (e : EngineState) (deckId : DeckId) (volume : ℚ) :
    EngineState × Event :=
  let deck := e.deck deckId
  (e.setDeck deckId { deck with volume := clamp volume 0 1 },
   Event.volumeChange deckId volume)

/-- AudioEngine.setCrossfader: store the clamped position and emit the
crossfaderChange event carrying the original argument. -/
def setCrossfader (e : EngineState) (position : ℚ) : EngineState × Event :=
  ({ e with crossfaderPosition := clamp position 0 1 },
   Event.crossfaderChange position)

/-- AudioEngine.setHotCue: for index 1..4 store the current position in slot
index - 1, otherwise do nothing. -/
def setHotCue (e : EngineState) (deckId : DeckId) (now : ℚ) (index : ℕ) :
    EngineState :=
  let deck := e.deck deckId
  if index < 1 ∨ 4 < index then e
  else e.setDeck deckId
    { deck with
      hotCues := deck.hotCues.set (index - 1) (some (getPosition e deckId now)) }

/-- AudioEngine.goToHotCue: for index 1..4, seek to the stored position and
start playback when the deck is not actively playing; on an unset slot fall
back to setHotCue. -/
def goToHotCue (e : EngineState) (deckId : DeckId) (now : ℚ) (index : ℕ) :
    EngineState :=
  let deck := e.deck deckId
  if index < 1 ∨ 4 < index then e
  else
    match deck.hotCues.getD (index - 1) none with
    | some p =>
      let e1 := seek e deckId now p
      if !(e1.deck deckId).isPlaying || (e1.deck deckId).isPaused then
        play e1 deckId now
      else e1
    | none => setHotCue e deckId now index

/-- AudioEngine.clearHotCue: for index 1..4 clear slot index - 1. -/
def clearHotCue (e : EngineState) (deckId : DeckId) (index : ℕ) : EngineState :=
  let deck := e.deck deckId
  if index < 1 ∨ 4 < index then e
  else e.setDeck deckId
    { deck with hotCues := deck.hotCues.set (index - 1) none }

/-- AudioEngine.sync: match this deck to the other deck using the bpm and
tempo of both; a missing bpm (0, JS falsy) aborts. -/
def sync (e : EngineState) (deckId : DeckId) (now : ℚ) : EngineState :=
  let sourceDeck := e.deck deckId.other
  let targetDeck := e.deck deckId
  if sourceDeck.bpm = 0 ∨ targetDeck.bpm = 0 then e
  else
    setTempo e deckId now
      (clamp (sourceDeck.bpm * sourceDeck.tempo / targetDeck.bpm) (1/2) (3/2))

end AudioEngine

/-- Utils.crossfadeGains from src/js/utils.js (equal-power law):
angleA = (1 - position) * pi / 2, angleB = position * pi / 2,
gainA = cos angleB, gainB = cos angleA. -/
noncomputable def crossfadeGains (position : ℝ) : ℝ × ℝ :=
  let angleA := (1 - position) * Real.pi / 2
  let angleB := position * Real.pi / 2
  (Real.cos angleB, Real.cos angleA)

/-- AudioEngine.updateCrossfaderGains: the output gain of each deck is the
deck volume multiplied by its crossfader bus gain. -/
noncomputable def updateCrossfaderGains (volumeA volumeB position : ℝ) : ℝ × ℝ :=
  (volumeA * (crossfadeGains position).1, volumeB * (crossfadeGains position).2)

/-- Engine-level gain recomputation triggered by setVolume, setCrossfader and
play: reads the stored (clamped) deck volumes and crossfader position. -/
noncomputable def EngineState.busGains (e : EngineState) : ℝ × ℝ :=
  updateCrossfaderGains (e.deckA.volume : ℝ) (e.deckB.volume : ℝ)
    (e.crossfaderPosition : ℝ)

/-- State of the AutoMixer class (src AutoMixer): configuration flags, the
identity of the decks taking part in a running mix, whether the fade and
tempo-reset timers are armed, the volume snapshots taken at mix start, and
the stored pre-sync tempo of the incoming deck. -/
structure AutoMixerState where
  enabled : Bool
  isMixing : Bool
  mixingFromDeck : Option DeckId
  mixingToDeck : Option DeckId
  fadeTimer : Bool
  tempoResetTimer : Bool
  originalVolumeA : ℚ
  originalVolumeB : ℚ
  targetTempo : Option ℚ
deriving DecidableEq

/-- this.originalVolumes[deckId]. -/
def AutoMixerState.originalVolume (am : AutoMixerState) : DeckId → ℚ
  | .A => am.originalVolumeA
  | .B => am.originalVolumeB

/-- Assignment this.originalVolumes[deckId] = v. -/
def AutoMixerState.setOriginalVolume (am : AutoMixerState) : DeckId → ℚ → AutoMixerState
  | .A, v => { am with originalVolumeA := v }
  | .B, v => { am with originalVolumeB := v }

namespace AutoMixer

/-- this.fadeTime: seconds before track end at which mixing starts. -/
def fadeTime : ℚ := 10

/-- AutoMixer.startMix: snapshot both decks' volumes, record the incoming
deck's pre-sync tempo, set the incoming deck's volume to 0, sync it to the
outgoing deck, start its playback, and arm the fade timer. -/
def startMix (am : AutoMixerState) (e : EngineState)
    (fromDeckId toDeckId : DeckId) (now : ℚ) : AutoMixerState × EngineState :=
  if am.isMixing then (am, e)
  else
    let fromDeck := e.deck fromDeckId
    let toDeck := e.deck toDeckId
    let am1 :=
      (am.setOriginalVolume fromDeckId fromDeck.volume).setOriginalVolume
        toDeckId toDeck.volume
    let am2 :=
      { am1 with
        isMixing := true
        mixingFromDeck := some fromDeckId
        mixingToDeck := some toDeckId
        targetTempo := some toDeck.tempo
        fadeTimer := true }
    let e1 := (AudioEngine.setVolume e toDeckId 0).1
    let e2 := AudioEngine.sync e1 toDeckId now
    let e3 := AudioEngine.play e2 toDeckId now
    (am2, e3)

/-- AutoMixer.checkPosition: on a position tick, start a mix when auto-mix
is enabled, no mix is in progress, the ticking deck is actively playing,
the remaining time is in (0, fadeTime], and the other deck has a track
loaded and is not actively playing. -/
def checkPosition (am : AutoMixerState) (e : EngineState) (deckId : DeckId)
    (position duration now : ℚ) : AutoMixerState × EngineState :=
  if !am.enabled || am.isMixing then (am, e)
  else
    let deck := e.deck deckId
    if !deck.isPlaying || deck.isPaused then (am, e)
    else
      let timeRemaining := duration - position
      if timeRemaining ≤ fadeTime ∧ 0 < timeRemaining then
        let otherDeckId := deckId.other
        let otherDeck := e.deck otherDeckId
        if otherDeck.hasBuffer && (!otherDeck.isPlaying || otherDeck.isPaused) then
          startMix am e deckId otherDeckId now
        else (am, e)
      else (am, e)

/-- AutoMixer.cancelMix: clear both timers, restore the snapshot volume of
each participating deck through setVolume, and leave the mixing state. -/
def cancelMix (am : AutoMixerState) (e : EngineState) :
    AutoMixerState × EngineState :=
  let e1 := match am.mixingFromDeck with
    | some d => (AudioEngine.setVolume e d (am.originalVolume d)).1
    | none => e
  let e2 := match am.mixingToDeck with
    | some d => (AudioEngine.setVolume e1 d (am.originalVolume d)).1
    | none => e1
  ({ am with
      fadeTimer := false
      tempoResetTimer := false
      isMixing := false
      mixingFromDeck := none
      mixingToDeck := none }, e2)

/-- AutoMixer.setEnabled: store the flag; disabling during a mix cancels it. -/
def setEnabled (am : AutoMixerState) (e : EngineState) (enabled : Bool) :
    AutoMixerState × EngineState :=
  let am1 := { am with enabled := enabled }
  if !enabled && am1.isMixing then cancelMix am1 e else (am1, e)

/-- this.tempoResetDuration / stepTime: the reset ramp has 30 steps. -/
def tempoResetSteps : ℕ := 30

/-- The sequence of arguments AutoMixer.startTempoReset passes to setTempo:
nothing when the tempo is already within 0.01 of the fixed target 1.0;
otherwise the 30 ramp values current + (1 - current)/30 * k for k = 1..30
followed by the closing setTempo(deckId, 1.0). -/
def tempoResetCalls (currentTempo : ℚ) : List ℚ :=
  if |currentTempo - 1| < 1/100 then []
  else
    ((List.range tempoResetSteps).map
      (fun k => currentTempo + (1 - currentTempo) / (tempoResetSteps : ℚ) * ((k : ℚ) + 1)))
      ++ [1]

/-- AutoMixer.startTempoReset: apply the ramp of setTempo calls to the deck.
The calls are spread over tempoResetDuration in the source; only their
cumulative effect on the engine state is modelled. -/
def startTempoReset (e : EngineState) (deckId : DeckId) (now : ℚ) : EngineState :=
  (tempoResetCalls ((e.deck deckId).tempo)).foldl
    (fun e1 t => AudioEngine.setTempo e1 deckId now t) e

end AutoMixer

/-- The conditions under which AutoMixer.checkPosition starts a mix, stated
positively: auto-mix enabled, no mix in progress, ticking deck actively
playing, remaining time in (0, fadeTime], other deck loaded and not
actively playing. -/
def mixConditions (am : AutoMixerState) (e : EngineState) (deckId : DeckId)
    (position duration : ℚ) : Prop :=
  am.enabled = true ∧ am.isMixing = false ∧
  (e.deck deckId).isPlaying = true ∧ (e.deck deckId).isPaused = false ∧
  duration - position ≤ AutoMixer.fadeTime ∧ 0 < duration - position ∧
  (e.deck deckId.other).hasBuffer = true ∧
  ((e.deck deckId.other).isPlaying = false ∨ (e.deck deckId.other).isPaused = true)

namespace BPMDetector

/-- The onset envelope is analysed at 200 Hz. -/
def analysisRate : ℕ := 200

/-- this.minBPM. -/
def minBPM : ℕ := 60

/-- this.maxBPM. -/
def maxBPM : ℕ := 180

/-- this.targetMinBPM. -/
def targetMinBPM : ℚ := 90

/-- this.targetMaxBPM. -/
def targetMaxBPM : ℚ := 140

/-- Math.floor(60 / maxBPM * analysisRate): the smallest candidate lag. -/
def minLag : ℕ := 60 * analysisRate / maxBPM

/-- Math.floor(60 / minBPM * analysisRate): the largest candidate lag. -/
def maxLag : ℕ := 60 * analysisRate / minBPM

/-- One entry of the correlations array built by autocorrelationBPM. -/
structure Candidate where
  lag : ℕ
  bpm : ℚ
  correlation : ℚ
deriving DecidableEq

/-- The inner loop of autocorrelationBPM for one lag: the mean of
envelope[i] * envelope[i+lag] over 0 <= i < envelope.length - lag, and 0
when that range is empty (count stays 0 and the division is skipped). -/
def autocorrAt (envelope : List ℚ) (lag : ℕ) : ℚ :=
  let count := envelope.length - lag
  if count = 0 then 0
  else
    (((List.range count).map
      (fun i => envelope.getD i 0 * envelope.getD (i + lag) 0)).sum) / count

/-- bpm = 60 / (lag / analysisRate). -/
def bpmOfLag (lag : ℕ) : ℚ := 60 / ((lag : ℚ) / (analysisRate : ℚ))

/-- The 1.2 bonus applied to correlations in the 90..140 BPM target range. -/
def targetBonus (bpm : ℚ) : ℚ :=
  if targetMinBPM ≤ bpm ∧ bpm ≤ targetMaxBPM then 6/5 else 1

/-- The correlations entry pushed for one lag. -/
def candidateAt (envelope : List ℚ) (lag : ℕ) : Candidate :=
  { lag := lag
    bpm := bpmOfLag lag
    correlation := autocorrAt envelope lag * targetBonus (bpmOfLag lag) }

/-- The lags minLag .. maxLag scanned by autocorrelationBPM. -/
def lagRange : List ℕ := (List.range (maxLag - minLag + 1)).map (fun k => minLag + k)

/-- The correlations array. -/
def candidates (envelope : List ℚ) : List Candidate :=
  lagRange.map (candidateAt envelope)

/-- The peak search: bestResult is replaced when a strictly larger
correlation is found. -/
def pickBetter (best c : Candidate) : Candidate :=
  if best.correlation < c.correlation then c else best

/-- bestResult: starts at correlations[0] (the minLag entry) and scans the
whole array. -/
def bestCandidate (envelope : List ℚ) : Candidate :=
  (candidates envelope).foldl pickBetter (candidateAt envelope minLag)

/-- The harmonic score lookup of refineWithHarmonics: the correlation of the
first entry whose bpm is within 2 of testBPM, 0 when none matches. -/
def findScore (cands : List Candidate) (testBPM : ℚ) : ℚ :=
  match cands.find? (fun c => decide (|c.bpm - testBPM| < 2)) with
  | some c => c.correlation
  | none => 0

/-- The harmonic multiples checked by refineWithHarmonics. -/
def harmonics : List ℚ := [1/2, 1, 2]

/-- One iteration of the refineWithHarmonics loop, carrying
(bestBPM, bestScore). -/
def refineStep (bpm : ℚ) (cands : List Candidate) (best : ℚ × ℚ) (h : ℚ) :
    ℚ × ℚ :=
  let testBPM := bpm * h
  if testBPM < 60 ∨ 180 < testBPM then best
  else
    let score0 := findScore cands testBPM
    let score :=
      if targetMinBPM ≤ testBPM ∧ testBPM ≤ targetMaxBPM then score0 * (13/10)
      else score0
    if best.2 < score then (testBPM, score) else best

/-- BPMDetector.refineWithHarmonics: bestBPM starts at the input bpm with
bestScore 0 and each in-range harmonic multiple can replace it. -/
def refineWithHarmonics (bpm : ℚ) (cands : List Candidate) : ℚ :=
  (harmonics.foldl (refineStep bpm cands) (bpm, 0)).1

/-- Math.round: round half up. -/
def jsRound (x : ℚ) : ℤ := ⌊x + 1/2⌋

/-- BPMDetector.autocorrelationBPM: peak autocorrelation over the lag range,
harmonic refinement, and rounding to one decimal place. -/
def autocorrelationBPM (envelope : List ℚ) : ℚ :=
  ((jsRound (refineWithHarmonics (bestCandidate envelope).bpm
      (candidates envelope) * 10) : ℚ)) / 10

/-- JS runtime errors observable in calculateOnsetEnvelope: constructing a
typed array with a negative length throws a RangeError. -/
inductive JsError where
  | rangeError
deriving DecidableEq

/-- hopSize = Math.floor(sampleRate / 200): the analysis hop in samples. -/
def hopSize (sampleRate : ℕ) : ℕ := sampleRate / 200

/-- frameSize = hopSize * 2. -/
def frameSize (sampleRate : ℕ) : ℕ := hopSize sampleRate * 2

/-- numFrames = Math.floor((samples.length - frameSize) / hopSize): this is
floor division over the integers, and it is negative whenever the buffer is
shorter than one frame. -/
def numFrames (len sampleRate : ℕ) : ℤ :=
  Int.fdiv ((len : ℤ) - (frameSize sampleRate : ℤ)) (hopSize sampleRate : ℤ)

/-- The high-pass stage of bandpassFilter: prevHigh and prevSample carried
through the sample list;
prevHigh = alphaHigh * (prevHigh + samples[i] - prevSample). -/
noncomputable def highPassList (alphaHigh : ℝ) :
    ℝ → ℝ → List ℝ → List ℝ
  | _, _, [] => []
  | prevHigh, prevSample, x :: xs =>
    let h := alphaHigh * (prevHigh + x - prevSample)
    h :: highPassList alphaHigh h x xs

/-- The low-pass stage of bandpassFilter: prevLow carried through the list;
prevLow = prevLow + alphaLow * (filtered[i] - prevLow). -/
noncomputable def lowPassList (alphaLow : ℝ) : ℝ → List ℝ → List ℝ
  | _, [] => []
  | prevLow, x :: xs =>
    let l := prevLow + alphaLow * (x - prevLow)
    l :: lowPassList alphaLow l xs

/-- BPMDetector.bandpassFilter: a first-order high-pass at lowFreq followed
by a first-order low-pass at highFreq, with the RC coefficients of the
source; both filter states start at 0. -/
noncomputable def bandpassFilter (samples : List ℝ) (sampleRate : ℕ)
    (lowFreq highFreq : ℝ) : List ℝ :=
  let rcHigh := 1 / (2 * Real.pi * lowFreq)
  let dtHigh := 1 / (sampleRate : ℝ)
  let alphaHigh := rcHigh / (rcHigh + dtHigh)
  let rcLow := 1 / (2 * Real.pi * highFreq)
  let dtLow := 1 / (sampleRate : ℝ)
  let alphaLow := dtLow / (rcLow + dtLow)
  lowPassList alphaLow 0 (highPassList alphaHigh 0 0 samples)

/-- The per-frame energy loop of calculateOnsetEnvelope: for each of the n
frames, sqrt of the mean square of frameSz filtered samples starting at
i * hop; an out-of-range read yields 0 (the || 0 of the source). -/
noncomputable def energyEnvelope (filteredSamples : List ℝ)
    (n frameSz hop : ℕ) : List ℝ :=
  (List.range n).map (fun i =>
    Real.sqrt ((((List.range frameSz).map (fun j =>
      let sample := filteredSamples.getD (i * hop + j) 0
      sample * sample)).sum) / (frameSz : ℝ)))

/-- The onset loop of calculateOnsetEnvelope: onset[0] stays 0 and onset[i]
is the positive part of the envelope difference. -/
noncomputable def onsetOf (envelope : List ℝ) (n : ℕ) : List ℝ :=
  (List.range n).map (fun i =>
    if i = 0 then 0
    else
      let diff := envelope.getD i 0 - envelope.getD (i - 1) 0
      if 0 < diff then diff else 0)

/-- The normalisation step of calculateOnsetEnvelope: when the peak maxOnset
is positive, every entry is divided by it; otherwise the onset is returned
unchanged.  The onset entries are nonnegative by construction, so folding
max from 0 agrees with the Math.max(...onset) guard of the source (both
guards fail on an empty onset, where Math.max gives -Infinity). -/
noncomputable def normalizeOnset (onset : List ℝ) : List ℝ :=
  let maxOnset := onset.foldl max 0
  if 0 < maxOnset then onset.map (fun x => x / maxOnset) else onset

/-- BPMDetector.calculateOnsetEnvelope: when numFrames is negative the
allocation new Float32Array(numFrames) throws a RangeError (so detect()
raises); otherwise the energy envelope, onset differences and optional
normalisation produce the onset envelope. -/
noncomputable def calculateOnsetEnvelope (samples : List ℝ)
    (sampleRate : ℕ) : Except JsError (List ℝ) :=
  if numFrames samples.length sampleRate < 0 then .error .rangeError
  else
    .ok (normalizeOnset
      (onsetOf
        (energyEnvelope (bandpassFilter samples sampleRate 100 4000)
          (numFrames samples.length sampleRate).toNat
          (frameSize sampleRate) (hopSize sampleRate))
        (numFrames samples.length sampleRate).toNat))

end BPMDetector

/-- A deck with a 30 second track loaded and actively playing from 0. -/
def exDeckPlaying : DeckState :=
  { createDeckState with hasBuffer := true, isPlaying := true, duration := 30, bpm := 120 }

/-- A deck with a 40 second track loaded, stopped, tempo 4/5. -/
def exDeckLoadedStopped : DeckState :=
  { createDeckState with hasBuffer := true, duration := 40, bpm := 100, tempo := 4/5 }

/-- Engine with deck A playing and deck B loaded and stopped. -/
def exEngine : EngineState :=
  { deckA := exDeckPlaying, deckB := exDeckLoadedStopped, crossfaderPosition := 1/2 }

/-- AutoMixer enabled and idle. -/
def exAutoMixerOn : AutoMixerState :=
  { enabled := true, isMixing := false, mixingFromDeck := none,
    mixingToDeck := none, fadeTimer := false, tempoResetTimer := false,
    originalVolumeA := 1, originalVolumeB := 1, targetTempo := none }

/-- AutoMixer in the middle of a mix from deck A to deck B. -/
def exAutoMixerMixing : AutoMixerState :=
  { enabled := true, isMixing := true, mixingFromDeck := some .A,
    mixingToDeck := some .B, fadeTimer := true, tempoResetTimer := false,
    originalVolumeA := 9/10, originalVolumeB := 7/10, targetTempo := some (4/5) }

/-- Engine mid-fade: both decks playing, volumes part way through the fade. -/
def exEngineMid : EngineState :=
  { deckA := { exDeckPlaying with volume := 1/2 }
    deckB := { exDeckLoadedStopped with isPlaying := true, volume := 1/5, tempo := 6/5 }
    crossfaderPosition := 1/2 }

/-- A deck with hot cue slot 2 set to position 3. -/
def exDeckHotCues : DeckState :=
  { exDeckPlaying with hotCues := [none, some 3, none, none] }

/-- Engine with deck A carrying a set hot cue. -/
def exEngineHotCues : EngineState :=
  { deckA := exDeckHotCues, deckB := createDeckState, crossfaderPosition := 1/2 }

namespace AudioEngine

/-- Helper: reading back the deck a method just wrote. -/
theorem deck_setDeck_self (e : EngineState) (i : DeckId) (d : DeckState) :
    (e.setDeck i d).deck i = d := by
  cases i <;> rfl

/-- Helper: writing one deck leaves the other unchanged. -/
theorem deck_setDeck_other (e : EngineState) (i j : DeckId) (d : DeckState)
    (h : i ≠ j) : (e.setDeck i d).deck j = e.deck j := by
  cases i <;> cases j <;> first | rfl | exact absurd rfl h

/-- Helper: the clamped tempo is at least 1/2, hence positive. -/
theorem clamp_tempo_pos (tempo : ℚ) : 0 < clamp tempo (1/2) (3/2) := by
  unfold clamp
  have h1 : (0:ℚ) < 1/2 := by norm_num
  exact lt_min (lt_of_lt_of_le h1 (le_max_right _ _)) (by norm_num)

end AudioEngine

/-- C1: for a deck that is actively playing, setTempo (with the rate clamped
to [0.5, 1.5]) re-anchors pauseTime and startTime so that getPosition
evaluated at the same clock instant is unchanged by the call. -/
theorem setTempo_preserves_position (e : EngineState) (deckId : DeckId)
    (now r : ℚ)
    (hp : (e.deck deckId).isPlaying = true)
    (hq : (e.deck deckId).isPaused = false) :
    AudioEngine.getPosition (AudioEngine.setTempo e deckId now r) deckId now
      = AudioEngine.getPosition e deckId now := by
  have ht : 0 < clamp r (1/2) (3/2) := AudioEngine.clamp_tempo_pos r
  unfold AudioEngine.setTempo
  simp only [hp, hq, Bool.not_false, Bool.and_self, if_true]
  rw [AudioEngine.getPosition, AudioEngine.deck_setDeck_self]
  unfold AudioEngine.getPosition
  simp only [hp, hq]
  cases hb : (e.deck deckId).hasBuffer with
  | false => simp [hb]
  | true =>
    simp only [hb, Bool.not_true, Bool.false_eq_true, if_false,
      Bool.or_self, Bool.not_false]
    set P := min ((now - (e.deck deckId).startTime) * (e.deck deckId).tempo)
      (e.deck deckId).duration with hP
    have h1 : (now - (now - P / clamp r (1/2) (3/2))) * clamp r (1/2) (3/2)
        = P / clamp r (1/2) (3/2) * clamp r (1/2) (3/2) := by ring
    rw [h1, div_mul_cancel₀ _ (ne_of_gt ht)]
    exact min_eq_left (min_le_right _ _)

/-- C2: the crossfader bus gains follow the equal-power law
gainA = cos (x pi/2), gainB = cos ((1-x) pi/2); hence gainA 0 = 1,
gainB 0 = 0, gainA 1 = 0, gainB 1 = 1 and gainA x ^ 2 + gainB x ^ 2 = 1 for
every x, and each deck's effective output gain is its volume times its bus
gain. -/
theorem crossfadeGains_equal_power (x : ℝ) :
    (crossfadeGains x).1 = Real.cos (x * (Real.pi / 2)) ∧
    (crossfadeGains x).2 = Real.cos ((1 - x) * (Real.pi / 2)) ∧
    (crossfadeGains 0).1 = 1 ∧ (crossfadeGains 0).2 = 0 ∧
    (crossfadeGains 1).1 = 0 ∧ (crossfadeGains 1).2 = 1 ∧
    (crossfadeGains x).1 ^ 2 + (crossfadeGains x).2 ^ 2 = 1 ∧
    ∀ vA vB : ℝ,
      updateCrossfaderGains vA vB x
        = (vA * (crossfadeGains x).1, vB * (crossfadeGains x).2) := by
  refine ⟨by simp [crossfadeGains, mul_div_assoc],
    by simp [crossfadeGains, mul_div_assoc], ?_, ?_, ?_, ?_, ?_,
    fun vA vB => rfl⟩
  · simp [crossfadeGains]
  · simp [crossfadeGains, Real.cos_pi_div_two]
  · simp [crossfadeGains, Real.cos_pi_div_two]
  · simp [crossfadeGains]
  · have h2 : (1 - x) * Real.pi / 2 = Real.pi / 2 - x * Real.pi / 2 := by ring
    unfold crossfadeGains
    simp only [h2, Real.cos_pi_div_two_sub]
    rw [add_comm]
    exact Real.sin_sq_add_cos_sq (x * Real.pi / 2)

/-- Helper: clamping a value already in [0, 1] returns it unchanged. -/
theorem clamp_eq_self {v : ℚ} (h0 : 0 ≤ v) (h1 : v ≤ 1) : clamp v 0 1 = v := by
  unfold clamp
  rw [max_eq_left h0, min_eq_left h1]

/-- Helper: the engine state produced by setVolume. -/
theorem setVolume_state (e : EngineState) (i : DeckId) (v : ℚ) :
    (AudioEngine.setVolume e i v).1
      = e.setDeck i { e.deck i with volume := clamp v 0 1 } := rfl

/-- Witness for C1: a concrete actively playing deck keeps its position
across a setTempo call. -/
theorem setTempo_preserves_position_witness :
    ((exEngine.deck .A).isPlaying = true ∧ (exEngine.deck .A).isPaused = false) ∧
    AudioEngine.getPosition (AudioEngine.setTempo exEngine .A 10 (6/5)) .A 10
      = AudioEngine.getPosition exEngine .A 10 :=
  ⟨⟨rfl, rfl⟩, setTempo_preserves_position exEngine .A 10 (6/5) rfl rfl⟩

/-- C10: for inputs outside [0, 1], setVolume and setCrossfader store the
clamped value (and the gain computation reads the stored, clamped value),
while the emitted volumeChange / crossfaderChange events carry the original
unclamped argument. -/
theorem setVolume_setCrossfader_clamp (e : EngineState) (deckId : DeckId)
    (v : ℚ) (hv : v < 0 ∨ 1 < v) :
    ((AudioEngine.setVolume e deckId v).1.deck deckId).volume = clamp v 0 1 ∧
    (AudioEngine.setVolume e deckId v).2 = Event.volumeChange deckId v ∧
    (AudioEngine.setCrossfader e v).1.crossfaderPosition = clamp v 0 1 ∧
    (AudioEngine.setCrossfader e v).2 = Event.crossfaderChange v ∧
    (AudioEngine.setCrossfader e v).1.busGains
      = updateCrossfaderGains (e.deckA.volume : ℝ) (e.deckB.volume : ℝ)
          ((clamp v 0 1 : ℚ) : ℝ) := by
  refine ⟨?_, rfl, rfl, rfl, rfl⟩
  rw [setVolume_state, AudioEngine.deck_setDeck_self]

/-- Witness for C10 at the out-of-range input 3/2. -/
theorem setVolume_setCrossfader_clamp_witness :
    ((3/2 : ℚ) < 0 ∨ 1 < (3/2 : ℚ)) ∧
    ((AudioEngine.setVolume exEngine .A (3/2)).1.deck .A).volume = clamp (3/2) 0 1 ∧
    (AudioEngine.setVolume exEngine .A (3/2)).2 = Event.volumeChange .A (3/2) :=
  ⟨Or.inr (by norm_num),
   (setVolume_setCrossfader_clamp exEngine .A (3/2) (Or.inr (by norm_num))).1,
   (setVolume_setCrossfader_clamp exEngine .A (3/2) (Or.inr (by norm_num))).2.1⟩

/-- C4: disabling auto-mix while a mix is in progress cancels both the fade
timer and the tempo-reset timer and restores both decks' volumes exactly to
their pre-mix snapshots, while the incoming deck keeps its playing state,
pause state and current tempo. -/
theorem autoMix_disable_restores (am : AutoMixerState) (e : EngineState)
    (f t : DeckId)
    (h1 : am.isMixing = true) (h2 : am.mixingFromDeck = some f)
    (h3 : am.mixingToDeck = some t)
    (hf0 : 0 ≤ am.originalVolume f) (hf1 : am.originalVolume f ≤ 1)
    (ht0 : 0 ≤ am.originalVolume t) (ht1 : am.originalVolume t ≤ 1) :
    (AutoMixer.setEnabled am e false).1.fadeTimer = false ∧
    (AutoMixer.setEnabled am e false).1.tempoResetTimer = false ∧
    ((AutoMixer.setEnabled am e false).2.deck f).volume = am.originalVolume f ∧
    ((AutoMixer.setEnabled am e false).2.deck t).volume = am.originalVolume t ∧
    ((AutoMixer.setEnabled am e false).2.deck t).isPlaying = (e.deck t).isPlaying ∧
    ((AutoMixer.setEnabled am e false).2.deck t).isPaused = (e.deck t).isPaused ∧
    ((AutoMixer.setEnabled am e false).2.deck t).tempo = (e.deck t).tempo := by
  have hcf := clamp_eq_self hf0 hf1
  have hct := clamp_eq_self ht0 ht1
  unfold AutoMixer.setEnabled AutoMixer.cancelMix
  simp only [Bool.not_false, Bool.true_and, h1, h2, h3, if_true]
  cases f <;> cases t <;>
    simp_all [setVolume_state, EngineState.setDeck, EngineState.deck,
      AutoMixerState.originalVolume]

/-- Witness for C4 at a concrete mid-mix state. -/
theorem autoMix_disable_restores_witness :
    (exAutoMixerMixing.isMixing = true ∧
     exAutoMixerMixing.mixingFromDeck = some .A ∧
     exAutoMixerMixing.mixingToDeck = some .B) ∧
    ((AutoMixer.setEnabled exAutoMixerMixing exEngineMid false).2.deck .A).volume
      = exAutoMixerMixing.originalVolume .A ∧
    ((AutoMixer.setEnabled exAutoMixerMixing exEngineMid false).2.deck .B).volume
      = exAutoMixerMixing.originalVolume .B ∧
    ((AutoMixer.setEnabled exAutoMixerMixing exEngineMid false).2.deck .B).isPlaying
      = (exEngineMid.deck .B).isPlaying := by
  have h := autoMix_disable_restores exAutoMixerMixing exEngineMid .A .B rfl rfl rfl
    (by norm_num [exAutoMixerMixing, AutoMixerState.originalVolume])
    (by norm_num [exAutoMixerMixing, AutoMixerState.originalVolume])
    (by norm_num [exAutoMixerMixing, AutoMixerState.originalVolume])
    (by norm_num [exAutoMixerMixing, AutoMixerState.originalVolume])
  exact ⟨⟨rfl, rfl, rfl⟩, h.2.2.1, h.2.2.2.1, h.2.2.2.2.1⟩

/-- Helper: the deck written by setVolume. -/
theorem setVolume_deck_self (e : EngineState) (i : DeckId) (v : ℚ) :
    (AudioEngine.setVolume e i v).1.deck i
      = { e.deck i with volume := clamp v 0 1 } := by
  rw [setVolume_state, AudioEngine.deck_setDeck_self]

/-- Helper: the tempo stored by setTempo is the clamped argument. -/
theorem setTempo_tempo (e : EngineState) (i : DeckId) (now t : ℚ) :
    ((AudioEngine.setTempo e i now t).deck i).tempo = clamp t (1/2) (3/2) := by
  unfold AudioEngine.setTempo
  rw [AudioEngine.deck_setDeck_self]

/-- Helper: clamping 1 to [1/2, 3/2] gives 1. -/
theorem clamp_one : clamp 1 (1/2) (3/2) = 1 := by
  unfold clamp
  rw [max_eq_left (by norm_num), min_eq_left (by norm_num)]

/-- Helper: the tempo after sync. -/
theorem sync_tempo (e : EngineState) (i : DeckId) (now : ℚ) :
    ((AudioEngine.sync e i now).deck i).tempo
      = if (e.deck i.other).bpm = 0 ∨ (e.deck i).bpm = 0 then (e.deck i).tempo
        else clamp (clamp ((e.deck i.other).bpm * (e.deck i.other).tempo
              / (e.deck i).bpm) (1/2) (3/2)) (1/2) (3/2) := by
  simp only [AudioEngine.sync]
  split_ifs with h
  · rfl
  · rw [setTempo_tempo]

/-- Helper: play does not change the tempo. -/
theorem play_tempo (e : EngineState) (i : DeckId) (now : ℚ) :
    ((AudioEngine.play e i now).deck i).tempo = (e.deck i).tempo := by
  simp only [AudioEngine.play]
  split_ifs <;> first | rfl | rw [AudioEngine.deck_setDeck_self]

/-- Helper: sync leaves volume, playing state, pause state and buffer flag of
a deck that is not actively playing unchanged. -/
theorem sync_preserves (e : EngineState) (i : DeckId) (now : ℚ)
    (hnp : (e.deck i).isPlaying = false ∨ (e.deck i).isPaused = true) :
    ((AudioEngine.sync e i now).deck i).volume = (e.deck i).volume ∧
    ((AudioEngine.sync e i now).deck i).isPlaying = (e.deck i).isPlaying ∧
    ((AudioEngine.sync e i now).deck i).isPaused = (e.deck i).isPaused ∧
    ((AudioEngine.sync e i now).deck i).hasBuffer = (e.deck i).hasBuffer := by
  simp only [AudioEngine.sync]
  split_ifs with h
  · exact ⟨rfl, rfl, rfl, rfl⟩
  · simp only [AudioEngine.setTempo]
    rw [AudioEngine.deck_setDeck_self]
    rcases hnp with h2 | h2 <;> simp [h2]

/-- Helper: play on a loaded deck that is not actively playing starts it and
keeps its volume. -/
theorem play_fields (e : EngineState) (i : DeckId) (now : ℚ)
    (hb : (e.deck i).hasBuffer = true)
    (hnp : (e.deck i).isPlaying = false ∨ (e.deck i).isPaused = true) :
    ((AudioEngine.play e i now).deck i).isPlaying = true ∧
    ((AudioEngine.play e i now).deck i).isPaused = false ∧
    ((AudioEngine.play e i now).deck i).volume = (e.deck i).volume := by
  unfold AudioEngine.play
  rcases hnp with h2 | h2 <;>
    simp [hb, h2, AudioEngine.deck_setDeck_self]

/-- Helper: the mix target deck after setVolume-to-0, sync and play: volume 0
and actively playing. -/
theorem mixTarget_fields (e : EngineState) (t : DeckId) (now : ℚ)
    (hb : (e.deck t).hasBuffer = true)
    (hnp : (e.deck t).isPlaying = false ∨ (e.deck t).isPaused = true) :
    ((AudioEngine.play (AudioEngine.sync ((AudioEngine.setVolume e t 0).1) t now)
        t now).deck t).volume = 0 ∧
    ((AudioEngine.play (AudioEngine.sync ((AudioEngine.setVolume e t 0).1) t now)
        t now).deck t).isPlaying = true ∧
    ((AudioEngine.play (AudioEngine.sync ((AudioEngine.setVolume e t 0).1) t now)
        t now).deck t).isPaused = false := by
  have h1 := setVolume_deck_self e t 0
  have hc0 : clamp 0 0 1 = (0:ℚ) := by unfold clamp; norm_num
  have hnp1 : ((AudioEngine.setVolume e t 0).1.deck t).isPlaying = false ∨
      ((AudioEngine.setVolume e t 0).1.deck t).isPaused = true := by
    rw [h1]; exact hnp
  have hs := sync_preserves ((AudioEngine.setVolume e t 0).1) t now hnp1
  have hb2 : ((AudioEngine.sync ((AudioEngine.setVolume e t 0).1) t now).deck t).hasBuffer
      = true := by
    rw [hs.2.2.2, h1]; exact hb
  have hnp2 : ((AudioEngine.sync ((AudioEngine.setVolume e t 0).1) t now).deck t).isPlaying
        = false ∨
      ((AudioEngine.sync ((AudioEngine.setVolume e t 0).1) t now).deck t).isPaused
        = true := by
    rcases hnp1 with h2 | h2
    · left; rw [hs.2.1]; exact h2
    · right; rw [hs.2.2.1]; exact h2
  have hp := play_fields (AudioEngine.sync ((AudioEngine.setVolume e t 0).1) t now)
    t now hb2 hnp2
  refine ⟨?_, hp.1, hp.2.1⟩
  rw [hp.2.2, hs.1, h1]
  exact hc0

/-- Helper: everything startMix establishes when no mix is in progress and
the target deck is loaded and not actively playing. -/
theorem startMix_spec (am : AutoMixerState) (e : EngineState) (f t : DeckId)
    (now : ℚ)
    (hm : am.isMixing = false)
    (hb : (e.deck t).hasBuffer = true)
    (hnp : (e.deck t).isPlaying = false ∨ (e.deck t).isPaused = true) :
    (AutoMixer.startMix am e f t now).1.isMixing = true ∧
    (AutoMixer.startMix am e f t now).1.mixingFromDeck = some f ∧
    (AutoMixer.startMix am e f t now).1.mixingToDeck = some t ∧
    (AutoMixer.startMix am e f t now).1.originalVolume f = (e.deck f).volume ∧
    (AutoMixer.startMix am e f t now).1.originalVolume t = (e.deck t).volume ∧
    (AutoMixer.startMix am e f t now).1.targetTempo = some ((e.deck t).tempo) ∧
    (AutoMixer.startMix am e f t now).1.fadeTimer = true ∧
    (AutoMixer.startMix am e f t now).2
      = AudioEngine.play (AudioEngine.sync ((AudioEngine.setVolume e t 0).1) t now)
          t now ∧
    ((AutoMixer.startMix am e f t now).2.deck t).volume = 0 ∧
    ((AutoMixer.startMix am e f t now).2.deck t).isPlaying = true := by
  have hmt := mixTarget_fields e t now hb hnp
  unfold AutoMixer.startMix
  rw [if_neg (by simp [hm])]
  refine ⟨rfl, rfl, rfl, ?_, ?_, rfl, rfl, rfl, hmt.1, hmt.2.1⟩
  · cases f <;> cases t <;>
      simp [AutoMixerState.originalVolume, AutoMixerState.setOriginalVolume]
  · cases f <;> cases t <;>
      simp [AutoMixerState.originalVolume, AutoMixerState.setOriginalVolume]

/-- Helper: a position tick either satisfies the mix conditions and runs
startMix toward the other deck, or leaves the combined state unchanged. -/
theorem checkPosition_cases (am : AutoMixerState) (e : EngineState)
    (deckId : DeckId) (position duration now : ℚ) :
    (mixConditions am e deckId position duration ∧
      AutoMixer.checkPosition am e deckId position duration now
        = AutoMixer.startMix am e deckId deckId.other now) ∨
    (¬ mixConditions am e deckId position duration ∧
      AutoMixer.checkPosition am e deckId position duration now = (am, e)) := by
  simp only [AutoMixer.checkPosition]
  split_ifs with h1 h2 h3 h4
  · refine Or.inr ⟨?_, rfl⟩
    intro hc
    obtain ⟨he, hm, _, _, _, _, _, _⟩ := hc
    simp [he, hm] at h1
  · refine Or.inr ⟨?_, rfl⟩
    intro hc
    obtain ⟨_, _, hp, hq, _, _, _, _⟩ := hc
    simp [hp, hq] at h2
  · refine Or.inl ⟨?_, rfl⟩
    simp only [Bool.or_eq_true, Bool.not_eq_true', not_or, Bool.not_eq_true,
      Bool.not_eq_false] at h1 h2
    simp only [Bool.and_eq_true, Bool.or_eq_true, Bool.not_eq_true'] at h4
    exact ⟨h1.1, h1.2, h2.1, h2.2, h3.1, h3.2, h4.1, h4.2⟩
  · refine Or.inr ⟨?_, rfl⟩
    intro hc
    obtain ⟨_, _, _, _, _, _, hob, honp⟩ := hc
    rcases honp with h | h <;> simp [hob, h] at h4
  · refine Or.inr ⟨?_, rfl⟩
    intro hc
    obtain ⟨_, _, _, _, hw1, hw2, _, _⟩ := hc
    exact h3 ⟨hw1, hw2⟩

/-- C3 (amended): a position tick starts an auto-mix (snapshot of both
volumes, incoming volume set to 0, tempo synced, playback started, fade
armed) exactly when auto-mix is enabled, no mix is in progress, the ticking
deck is actively playing, 0 < duration - position <= 10, and the other deck
is loaded and not actively playing; for a 30-second track a tick at 20.5 s
starts a mix, and so does a tick at 21 s (9 s remaining, inside the 10 s
window). -/
theorem checkPosition_mix_spec (am : AutoMixerState) (e : EngineState)
    (deckId : DeckId) (position duration now : ℚ) :
    (mixConditions am e deckId position duration →
      AutoMixer.checkPosition am e deckId position duration now
        = AutoMixer.startMix am e deckId deckId.other now ∧
      (AutoMixer.checkPosition am e deckId position duration now).1.isMixing = true ∧
      (AutoMixer.checkPosition am e deckId position duration now).1.mixingFromDeck
        = some deckId ∧
      (AutoMixer.checkPosition am e deckId position duration now).1.mixingToDeck
        = some deckId.other ∧
      (AutoMixer.checkPosition am e deckId position duration now).1.originalVolume deckId
        = (e.deck deckId).volume ∧
      (AutoMixer.checkPosition am e deckId position duration now).1.originalVolume
          deckId.other = (e.deck deckId.other).volume ∧
      (AutoMixer.checkPosition am e deckId position duration now).1.targetTempo
        = some ((e.deck deckId.other).tempo) ∧
      (AutoMixer.checkPosition am e deckId position duration now).1.fadeTimer = true ∧
      ((AutoMixer.checkPosition am e deckId position duration now).2.deck
          deckId.other).volume = 0 ∧
      ((AutoMixer.checkPosition am e deckId position duration now).2.deck
          deckId.other).isPlaying = true) ∧
    (¬ mixConditions am e deckId position duration →
      AutoMixer.checkPosition am e deckId position duration now = (am, e)) := by
  rcases checkPosition_cases am e deckId position duration now with
    ⟨hc, heq⟩ | ⟨hc, heq⟩
  · refine ⟨fun _ => ?_, fun hn => absurd hc hn⟩
    obtain ⟨_, hm, _, _, _, _, hob, honp⟩ := hc
    have hs := startMix_spec am e deckId deckId.other now hm hob honp
    rw [heq]
    exact ⟨rfl, hs.1, hs.2.1, hs.2.2.1, hs.2.2.2.1, hs.2.2.2.2.1,
      hs.2.2.2.2.2.1, hs.2.2.2.2.2.2.1, hs.2.2.2.2.2.2.2.2.1,
      hs.2.2.2.2.2.2.2.2.2⟩
  · exact ⟨fun h => absurd h hc, fun _ => heq⟩

/-- Witness for C3 at the concrete 20.5 s tick of a 30 s track. -/
theorem checkPosition_mix_spec_witness :
    mixConditions exAutoMixerOn exEngine .A (41/2) 30 ∧
    (AutoMixer.checkPosition exAutoMixerOn exEngine .A (41/2) 30 0).1.isMixing
      = true := by
  have hc : mixConditions exAutoMixerOn exEngine .A (41/2) 30 :=
    ⟨rfl, rfl, rfl, rfl, by norm_num [AutoMixer.fadeTime], by norm_num, rfl,
     Or.inl rfl⟩
  exact ⟨hc,
    ((checkPosition_mix_spec exAutoMixerOn exEngine .A (41/2) 30 0).1 hc).2.1⟩

/-- Counterexample to C3 as stated: with a 30-second track, deck B loaded and
stopped and auto-mix armed, a tick at position 21 s (9 s remaining, inside
the 10 s window) DOES start a mix, contrary to the claim that it starts
none. -/
theorem checkPosition_21s_starts_mix :
    (AutoMixer.checkPosition exAutoMixerOn exEngine .A 21 30 0).1.isMixing
      = true := by
  have hc : mixConditions exAutoMixerOn exEngine .A 21 30 :=
    ⟨rfl, rfl, rfl, rfl, by norm_num [AutoMixer.fadeTime], by norm_num, rfl,
     Or.inl rfl⟩
  rcases checkPosition_cases exAutoMixerOn exEngine .A 21 30 0 with
    ⟨_, heq⟩ | ⟨hn, _⟩
  · rw [heq]
    exact (startMix_spec exAutoMixerOn exEngine .A DeckId.A.other 0 rfl rfl
      (Or.inl rfl)).1
  · exact absurd hc hn

/-- Helper: the cumulative effect of the tempo-reset ramp on the deck tempo:
unchanged when already within 0.01 of 1, otherwise exactly 1. -/
theorem startTempoReset_tempo (e : EngineState) (deckId : DeckId) (now : ℚ) :
    ((AutoMixer.startTempoReset e deckId now).deck deckId).tempo
      = if |(e.deck deckId).tempo - 1| < 1/100 then (e.deck deckId).tempo
        else 1 := by
  simp only [AutoMixer.startTempoReset, AutoMixer.tempoResetCalls]
  split_ifs with h
  · rfl
  · rw [List.foldl_append]
    simp only [List.foldl_cons, List.foldl_nil]
    rw [setTempo_tempo, clamp_one]

/-- C7 (amended): startMix snapshots the incoming deck's pre-sync tempo into
targetTempo, but the tempo-reset ramp after the fade does not use it: its
terminal tempo is the fixed value 1.0 whenever a ramp runs (tempo more than
0.01 away from 1), so the pre-sync tempo is in general not restored. -/
theorem tempoReset_target (am : AutoMixerState) (e : EngineState)
    (f t : DeckId) (now : ℚ) (hm : am.isMixing = false) :
    (AutoMixer.startMix am e f t now).1.targetTempo = some ((e.deck t).tempo) ∧
    ∀ (e2 : EngineState) (deckId : DeckId) (now2 : ℚ),
      ((AutoMixer.startTempoReset e2 deckId now2).deck deckId).tempo
        = if |(e2.deck deckId).tempo - 1| < 1/100 then (e2.deck deckId).tempo
          else 1 := by
  constructor
  · simp only [AutoMixer.startMix]
    rw [if_neg (by simp [hm])]
  · intro e2 deckId now2
    exact startTempoReset_tempo e2 deckId now2

/-- Witness for C7: concrete startMix stores the incoming deck's pre-sync
tempo 4/5. -/
theorem tempoReset_target_witness :
    exAutoMixerOn.isMixing = false ∧
    (AutoMixer.startMix exAutoMixerOn exEngine .A .B 0).1.targetTempo
      = some ((exEngine.deck .B).tempo) :=
  ⟨rfl, (tempoReset_target exAutoMixerOn exEngine .A .B 0 rfl).1⟩

/-- Helper: clamping a value already inside [lo, hi] returns it unchanged. -/
theorem clamp_eq_of_le {v lo hi : ℚ} (hlo : lo ≤ v) (hhi : v ≤ hi) :
    clamp v lo hi = v := by
  unfold clamp
  rw [max_eq_left hlo, min_eq_left hhi]

/-- Counterexample to C7 as stated: startMix stores the incoming deck's
pre-sync tempo 4/5 as targetTempo, but after sync sets the deck to tempo
6/5 the reset ramp terminates at tempo 1, not at the stored 4/5. -/
theorem tempoReset_not_presync :
    (AutoMixer.startMix exAutoMixerOn exEngine .A .B 0).1.targetTempo
      = some (4/5) ∧
    ((AutoMixer.startTempoReset
        (AutoMixer.startMix exAutoMixerOn exEngine .A .B 0).2 .B 0).deck
          .B).tempo = 1 ∧
    (1 : ℚ) ≠ 4/5 := by
  refine ⟨rfl, ?_, by norm_num⟩
  have hcl : clamp (6/5) (1/2) (3/2) = 6/5 :=
    clamp_eq_of_le (by norm_num) (by norm_num)
  have htempo : ((AutoMixer.startMix exAutoMixerOn exEngine .A .B 0).2.deck
      .B).tempo = 6/5 := by
    show ((AudioEngine.play
        (AudioEngine.sync ((AudioEngine.setVolume exEngine .B 0).1) .B 0)
        .B 0).deck .B).tempo = 6/5
    rw [play_tempo, sync_tempo]
    have hsb : ((AudioEngine.setVolume exEngine .B 0).1.deck
        DeckId.B.other).bpm = 120 := rfl
    have hst : ((AudioEngine.setVolume exEngine .B 0).1.deck
        DeckId.B.other).tempo = 1 := rfl
    have htb : ((AudioEngine.setVolume exEngine .B 0).1.deck DeckId.B).bpm
        = 100 := rfl
    rw [hsb, hst, htb, if_neg (by norm_num),
      show (120 : ℚ) * 1 / 100 = 6/5 by norm_num, hcl, hcl]
  rw [startTempoReset_tempo, htempo]
  have habs : ¬(|(6/5 : ℚ) - 1| < 1/100) := by
    rw [show (6/5 : ℚ) - 1 = 1/5 by norm_num,
      abs_of_pos (show (0:ℚ) < 1/5 by norm_num)]
    norm_num
  rw [if_neg habs]

/-- C8 (amended): the hot-cue table of every deck has 4 slots addressed
1..4: a fresh deck has 4 empty slots, setHotCue stores the current position
into slot index (keeping the table at 4 slots), clearHotCue empties slot
index, and indices outside 1..4 leave the engine state unchanged for
setHotCue, goToHotCue and clearHotCue. -/
theorem hotCue_table_spec :
    createDeckState.hotCues.length = 4 ∧
    (∀ (e : EngineState) (deckId : DeckId) (now : ℚ) (index : ℕ),
      (e.deck deckId).hotCues.length = 4 → 1 ≤ index → index ≤ 4 →
      (((AudioEngine.setHotCue e deckId now index).deck deckId).hotCues[index - 1]?
          = some (some (AudioEngine.getPosition e deckId now)) ∧
       ((AudioEngine.setHotCue e deckId now index).deck deckId).hotCues.length = 4 ∧
       ((AudioEngine.clearHotCue e deckId index).deck deckId).hotCues[index - 1]?
          = some none)) ∧
    (∀ (e : EngineState) (deckId : DeckId) (now : ℚ) (index : ℕ),
      index < 1 ∨ 4 < index →
      AudioEngine.setHotCue e deckId now index = e ∧
      AudioEngine.goToHotCue e deckId now index = e ∧
      AudioEngine.clearHotCue e deckId index = e) := by
  refine ⟨rfl, ?_, ?_⟩
  · intro e deckId now index hl h1 h4
    have hrange : ¬(index < 1 ∨ 4 < index) := by omega
    have hlt : index - 1 < (e.deck deckId).hotCues.length := by omega
    refine ⟨?_, ?_, ?_⟩
    · simp only [AudioEngine.setHotCue]
      rw [if_neg hrange, AudioEngine.deck_setDeck_self]
      exact List.getElem?_set_eq_of_lt _ hlt
    · simp only [AudioEngine.setHotCue]
      rw [if_neg hrange, AudioEngine.deck_setDeck_self]
      simp [hl]
    · simp only [AudioEngine.clearHotCue]
      rw [if_neg hrange, AudioEngine.deck_setDeck_self]
      exact List.getElem?_set_eq_of_lt _ hlt
  · intro e deckId now index hrange
    refine ⟨?_, ?_, ?_⟩
    · simp only [AudioEngine.setHotCue]
      rw [if_pos hrange]
    · simp only [AudioEngine.goToHotCue]
      rw [if_pos hrange]
    · simp only [AudioEngine.clearHotCue]
      rw [if_pos hrange]

/-- Witness for C8: slot 3 of a fresh deck is set to the current position. -/
theorem hotCue_table_spec_witness :
    ((exEngine.deck .A).hotCues.length = 4 ∧ 1 ≤ 3 ∧ 3 ≤ 4) ∧
    ((AudioEngine.setHotCue exEngine .A 7 3).deck .A).hotCues[(3:ℕ) - 1]?
      = some (some (AudioEngine.getPosition exEngine .A 7)) :=
  ⟨⟨rfl, by decide, by decide⟩,
   ((hotCue_table_spec.2.1) exEngine .A 7 3 rfl (by decide) (by decide)).1⟩

/-- Counterexample to C8 as stated: the hot-cue table has 4 slots, not 8,
and setHotCue at the in-1..8 index 5 is ignored instead of storing a
position. -/
theorem hotCue_table_not_eight :
    createDeckState.hotCues.length = 4 ∧
    createDeckState.hotCues.length ≠ 8 ∧
    AudioEngine.setHotCue exEngine .A 7 5 = exEngine := by
  refine ⟨rfl, by decide, ?_⟩
  simp only [AudioEngine.setHotCue]
  rw [if_pos (by decide)]

/-- Helper: the deck state after the seek-then-maybe-play sequence that
goToHotCue performs on a set slot: anchored at the clamped target position
and actively playing, whatever the previous transport state was. -/
theorem hotCueJump_deck (e : EngineState) (i : DeckId) (now p : ℚ)
    (hb : (e.deck i).hasBuffer = true) :
    (if !((AudioEngine.seek e i now p).deck i).isPlaying
        || ((AudioEngine.seek e i now p).deck i).isPaused then
      AudioEngine.play (AudioEngine.seek e i now p) i now
     else AudioEngine.seek e i now p).deck i
    = { e.deck i with
        pauseTime := clamp p 0 (e.deck i).duration
        startTime := now - clamp p 0 (e.deck i).duration / (e.deck i).tempo
        isPlaying := true
        isPaused := false } := by
  cases hP : (e.deck i).isPlaying <;> cases hQ : (e.deck i).isPaused <;>
    simp [AudioEngine.seek, AudioEngine.pause, AudioEngine.play,
      AudioEngine.getPosition, hb, hP, hQ, AudioEngine.deck_setDeck_self]

/-- C9: for a loaded deck and an in-range index, goToHotCue on an unset slot
behaves exactly as setHotCue (storing the current position) instead of
failing, and on a set slot seeks to the stored position and leaves the deck
actively playing there, starting playback when the deck was not already
playing. -/
theorem goToHotCue_spec (e : EngineState) (deckId : DeckId) (now : ℚ)
    (index : ℕ)
    (hb : (e.deck deckId).hasBuffer = true)
    (ht : 0 < (e.deck deckId).tempo)
    (h1 : 1 ≤ index) (h4 : index ≤ 4)
    (hl : (e.deck deckId).hotCues.length = 4) :
    ((e.deck deckId).hotCues.getD (index - 1) none = none →
      AudioEngine.goToHotCue e deckId now index
        = AudioEngine.setHotCue e deckId now index ∧
      ((AudioEngine.goToHotCue e deckId now index).deck deckId).hotCues[index - 1]?
        = some (some (AudioEngine.getPosition e deckId now))) ∧
    (∀ p : ℚ, (e.deck deckId).hotCues.getD (index - 1) none = some p →
      0 ≤ p → p ≤ (e.deck deckId).duration →
      ((AudioEngine.goToHotCue e deckId now index).deck deckId).isPlaying = true ∧
      ((AudioEngine.goToHotCue e deckId now index).deck deckId).isPaused = false ∧
      AudioEngine.getPosition (AudioEngine.goToHotCue e deckId now index)
        deckId now = p) := by
  have hrange : ¬(index < 1 ∨ 4 < index) := by omega
  constructor
  · intro h0
    have heq : AudioEngine.goToHotCue e deckId now index
        = AudioEngine.setHotCue e deckId now index := by
      simp only [AudioEngine.goToHotCue]
      rw [if_neg hrange, h0]
    refine ⟨heq, ?_⟩
    rw [heq]
    simp only [AudioEngine.setHotCue]
    rw [if_neg hrange, AudioEngine.deck_setDeck_self]
    exact List.getElem?_set_eq_of_lt _ (by omega)
  · intro p hp hp0 hpd
    have heq : AudioEngine.goToHotCue e deckId now index
        = (if !((AudioEngine.seek e deckId now p).deck deckId).isPlaying
              || ((AudioEngine.seek e deckId now p).deck deckId).isPaused then
            AudioEngine.play (AudioEngine.seek e deckId now p) deckId now
          else AudioEngine.seek e deckId now p) := by
      simp only [AudioEngine.goToHotCue]
      rw [if_neg hrange, hp]
    have hd := hotCueJump_deck e deckId now p hb
    rw [clamp_eq_of_le hp0 hpd] at hd
    rw [heq]
    refine ⟨by rw [hd], by rw [hd], ?_⟩
    simp only [AudioEngine.getPosition]
    rw [hd]
    have ht' : (e.deck deckId).tempo ≠ 0 := ne_of_gt ht
    have harith : (now - (now - p / (e.deck deckId).tempo))
        * (e.deck deckId).tempo = p := by
      field_simp
    simp only [hb, Bool.not_true, Bool.false_eq_true, if_false,
      Bool.or_self, Bool.not_false]
    rw [harith]
    exact min_eq_left hpd

/-- Witness for C9: jumping to the set hot cue 2 (position 3) of a playing
deck leaves it playing at position 3. -/
theorem goToHotCue_spec_witness :
    ((exEngineHotCues.deck .A).hotCues.getD (2 - 1) none = some 3) ∧
    ((AudioEngine.goToHotCue exEngineHotCues .A 7 2).deck .A).isPlaying = true ∧
    ((AudioEngine.goToHotCue exEngineHotCues .A 7 2).deck .A).isPaused = false ∧
    AudioEngine.getPosition (AudioEngine.goToHotCue exEngineHotCues .A 7 2)
      .A 7 = 3 := by
  have h := (goToHotCue_spec exEngineHotCues .A 7 2 rfl
      (by show (0:ℚ) < 1; norm_num) (by decide) (by decide) rfl).2 3 rfl
      (by norm_num) (by show (3:ℚ) ≤ 30; norm_num)
  exact ⟨rfl, h.1, h.2.1, h.2.2⟩

namespace BPMDetector

/-- Helper: every scanned lag lies in 66..200. -/
theorem mem_lagRange {l : ℕ} (h : l ∈ lagRange) : 66 ≤ l ∧ l ≤ 200 := by
  simp only [lagRange, List.mem_map, List.mem_range] at h
  obtain ⟨k, hk, rfl⟩ := h
  have h1 : minLag = 66 := rfl
  have h2 : maxLag = 200 := rfl
  rw [h1, h2] at hk
  rw [h1]
  omega

/-- Helper: bpm = 60 / (lag / 200) = 12000 / lag. -/
theorem bpmOfLag_eq (l : ℕ) : bpmOfLag l = 12000 / (l : ℚ) := by
  unfold bpmOfLag
  rw [div_div_eq_mul_div]
  norm_num [analysisRate]

/-- Helper: for lags in 66..200 the candidate bpm lies in [60, 2000/11]. -/
theorem bpmOfLag_bounds {l : ℕ} (h66 : 66 ≤ l) (h200 : l ≤ 200) :
    60 ≤ bpmOfLag l ∧ bpmOfLag l ≤ 2000/11 := by
  have hl : (0:ℚ) < (l:ℚ) := by
    exact_mod_cast Nat.lt_of_lt_of_le (by norm_num) h66
  have hcl : (l:ℚ) ≤ 200 := by exact_mod_cast h200
  have hcu : (66:ℚ) ≤ (l:ℚ) := by exact_mod_cast h66
  rw [bpmOfLag_eq]
  constructor
  · rw [le_div_iff₀ hl]
    nlinarith
  · rw [div_le_div_iff₀ hl (by norm_num : (0:ℚ) < 11)]
    nlinarith

/-- Helper: the peak search returns its initial value or a scanned entry. -/
theorem foldl_pickBetter_cases (l : List Candidate) (init : Candidate) :
    l.foldl pickBetter init = init ∨ l.foldl pickBetter init ∈ l := by
  induction l generalizing init with
  | nil => exact Or.inl rfl
  | cons a t ih =>
    simp only [List.foldl_cons]
    rcases ih (pickBetter init a) with h | h
    · rw [h]
      unfold pickBetter
      split_ifs
      · exact Or.inr (List.mem_cons_self a t)
      · exact Or.inl rfl
    · exact Or.inr (List.mem_cons_of_mem a h)

/-- Helper: every correlations entry has bpm in [60, 2000/11]. -/
theorem candidates_bpm {envelope : List ℚ} {c : Candidate}
    (hc : c ∈ candidates envelope) : 60 ≤ c.bpm ∧ c.bpm ≤ 2000/11 := by
  simp only [candidates, List.mem_map] at hc
  obtain ⟨l, hl, rfl⟩ := hc
  obtain ⟨h66, h200⟩ := mem_lagRange hl
  exact bpmOfLag_bounds h66 h200

/-- Helper: the peak bpm lies in [60, 2000/11]. -/
theorem bestCandidate_bpm (envelope : List ℚ) :
    60 ≤ (bestCandidate envelope).bpm ∧ (bestCandidate envelope).bpm ≤ 2000/11 := by
  unfold bestCandidate
  rcases foldl_pickBetter_cases (candidates envelope) (candidateAt envelope minLag)
    with h | h
  · rw [h]
    simp only [candidateAt]
    exact bpmOfLag_bounds (by decide) (by decide)
  · exact candidates_bpm h

/-- Helper: one refineWithHarmonics step keeps bestBPM inside [60, 2000/11]. -/
theorem refineStep_bounds (bpm : ℚ) (cands : List Candidate) (best : ℚ × ℚ)
    (hmul : ℚ) (hb : 60 ≤ best.1 ∧ best.1 ≤ 2000/11) :
    60 ≤ (refineStep bpm cands best hmul).1 ∧
    (refineStep bpm cands best hmul).1 ≤ 2000/11 := by
  simp only [refineStep]
  split_ifs with hg hs hlt hlt'
  · exact hb
  · push_neg at hg
    exact ⟨hg.1, le_trans hg.2 (by norm_num)⟩
  · exact hb
  · push_neg at hg
    exact ⟨hg.1, le_trans hg.2 (by norm_num)⟩
  · exact hb

/-- Helper: refineWithHarmonics keeps the estimate inside [60, 2000/11]. -/
theorem refine_bounds (bpm : ℚ) (cands : List Candidate)
    (h60 : 60 ≤ bpm) (h2000 : bpm ≤ 2000/11) :
    60 ≤ refineWithHarmonics bpm cands ∧
    refineWithHarmonics bpm cands ≤ 2000/11 := by
  unfold refineWithHarmonics harmonics
  simp only [List.foldl_cons, List.foldl_nil]
  exact refineStep_bounds bpm cands _ 2
    (refineStep_bounds bpm cands _ 1
      (refineStep_bounds bpm cands _ (1/2) ⟨h60, h2000⟩))

end BPMDetector

/-- C5 (amended): for every onset envelope the detector returns a single
estimate of an integer number of tenths (one decimal place) lying in
[60, 181.8]; the upper end comes from the smallest lag 66, whose bpm
12000/66 is slightly above 180, so the claimed bound 180 is exceeded on
some inputs. -/
theorem autocorrelationBPM_range (envelope : List ℚ) :
    ∃ z : ℤ, BPMDetector.autocorrelationBPM envelope = (z : ℚ) / 10 ∧
      600 ≤ z ∧ z ≤ 1818 := by
  obtain ⟨hb60, hb2000⟩ := BPMDetector.bestCandidate_bpm envelope
  obtain ⟨hr60, hr2000⟩ := BPMDetector.refine_bounds
    (BPMDetector.bestCandidate envelope).bpm (BPMDetector.candidates envelope)
    hb60 hb2000
  refine ⟨BPMDetector.jsRound (BPMDetector.refineWithHarmonics
    (BPMDetector.bestCandidate envelope).bpm
    (BPMDetector.candidates envelope) * 10), rfl, ?_, ?_⟩
  · unfold BPMDetector.jsRound
    rw [Int.le_floor]
    push_cast
    linarith
  · unfold BPMDetector.jsRound
    have hlt : BPMDetector.refineWithHarmonics
        (BPMDetector.bestCandidate envelope).bpm
        (BPMDetector.candidates envelope) * 10 + 1/2 < ((1819 : ℤ) : ℚ) := by
      push_cast
      linarith
    have h2 := Int.floor_lt.mpr hlt
    omega

namespace BPMDetector

/-- Helper: reading any index of an all-zero envelope gives 0. -/
theorem getD_zero {envelope : List ℚ} (h : ∀ x ∈ envelope, x = 0) (i : ℕ) :
    envelope.getD i 0 = 0 := by
  rw [List.getD_eq_getElem?_getD]
  rcases hlt : envelope[i]? with _ | a
  · rfl
  · exact h a (List.getElem?_mem hlt)

/-- Helper: the autocorrelation of an all-zero envelope is 0 at every lag. -/
theorem autocorrAt_zero {envelope : List ℚ} (h : ∀ x ∈ envelope, x = 0)
    (lag : ℕ) : autocorrAt envelope lag = 0 := by
  simp only [autocorrAt]
  split_ifs with hc
  · rfl
  · rw [List.sum_eq_zero, zero_div]
    intro x hx
    simp only [List.mem_map, List.mem_range] at hx
    obtain ⟨i, _, rfl⟩ := hx
    rw [getD_zero h, zero_mul]

/-- Helper: on a silent envelope every correlations entry scores 0. -/
theorem candidates_correlation_zero {envelope : List ℚ}
    (h : ∀ x ∈ envelope, x = 0) :
    ∀ c ∈ candidates envelope, c.correlation = 0 := by
  intro c hc
  simp only [candidates, List.mem_map] at hc
  obtain ⟨l, _, rfl⟩ := hc
  simp only [candidateAt]
  rw [autocorrAt_zero h, zero_mul]

/-- Helper: with all correlations equal to 0 the strict-improvement scan
never replaces its initial entry. -/
theorem foldl_pickBetter_zero (l : List Candidate) (init : Candidate)
    (hi : init.correlation = 0) (hl : ∀ c ∈ l, c.correlation = 0) :
    l.foldl pickBetter init = init := by
  induction l generalizing init with
  | nil => rfl
  | cons a t ih =>
    simp only [List.foldl_cons]
    have ha : pickBetter init a = init := by
      unfold pickBetter
      rw [hi, hl a (List.mem_cons_self a t)]
      simp
    rw [ha]
    exact ih init hi (fun c hc => hl c (List.mem_cons_of_mem a hc))

/-- Helper: with all correlations 0 the harmonic score lookup returns 0. -/
theorem findScore_zero {cands : List Candidate}
    (h : ∀ c ∈ cands, c.correlation = 0) (t : ℚ) : findScore cands t = 0 := by
  unfold findScore
  cases hf : cands.find? (fun c => decide (|c.bpm - t| < 2)) with
  | none => simp [hf]
  | some c =>
    simp only [hf]
    exact h c (List.mem_of_find?_eq_some hf)

/-- Helper: refining the out-of-range peak 2000/11 with all-zero scores
keeps it: the 1x and 2x harmonics are skipped as out of [60, 180] and the
0.5x harmonic never beats the initial best score 0. -/
theorem refine_silent {cands : List Candidate}
    (h : ∀ c ∈ cands, c.correlation = 0) :
    refineWithHarmonics (2000/11) cands = 2000/11 := by
  have hfs := findScore_zero h
  unfold refineWithHarmonics harmonics
  simp only [List.foldl_cons, List.foldl_nil]
  have s1 : refineStep (2000/11) cands ((2000/11 : ℚ), (0:ℚ)) (1/2)
      = ((2000/11 : ℚ), (0:ℚ)) := by
    simp only [refineStep]
    rw [if_neg (by norm_num), hfs]
    norm_num [targetMinBPM, targetMaxBPM]
  have s2 : refineStep (2000/11) cands ((2000/11 : ℚ), (0:ℚ)) 1
      = ((2000/11 : ℚ), (0:ℚ)) := by
    simp only [refineStep]
    rw [if_pos (by norm_num)]
  have s3 : refineStep (2000/11) cands ((2000/11 : ℚ), (0:ℚ)) 2
      = ((2000/11 : ℚ), (0:ℚ)) := by
    simp only [refineStep]
    rw [if_pos (by norm_num)]
  rw [s1, s2, s3]

/-- Helper: on a silent envelope the peak search keeps the first entry,
whose bpm is 12000/66 = 2000/11. -/
theorem bestCandidate_silent {envelope : List ℚ}
    (h : ∀ x ∈ envelope, x = 0) :
    bestCandidate envelope = candidateAt envelope minLag := by
  unfold bestCandidate
  refine foldl_pickBetter_zero _ _ ?_ (candidates_correlation_zero h)
  simp only [candidateAt]
  rw [autocorrAt_zero h, zero_mul]

/-- Helper: on any all-zero (silent) onset envelope the detector returns
exactly 181.8. -/
theorem autocorrelationBPM_silent (envelope : List ℚ)
    (h : ∀ x ∈ envelope, x = 0) :
    autocorrelationBPM envelope = 1818/10 := by
  unfold autocorrelationBPM
  rw [bestCandidate_silent h]
  have hbpm : (candidateAt envelope minLag).bpm = 2000/11 := by
    simp only [candidateAt]
    rw [bpmOfLag_eq]
    norm_num [minLag, analysisRate, maxBPM]
  rw [hbpm, refine_silent (candidates_correlation_zero h)]
  unfold jsRound
  have hf : ⌊(2000/11 : ℚ) * 10 + 1/2⌋ = 1818 := by
    apply Int.floor_eq_iff.mpr
    constructor <;> push_cast <;> norm_num
  rw [hf]
  norm_num

end BPMDetector

/-- Counterexample to C5 as stated: on the silent 10-sample envelope the
detector returns 181.8, which is outside [60, 180]. -/
theorem autocorrelationBPM_above_180 :
    BPMDetector.autocorrelationBPM (List.replicate 10 (0:ℚ)) = 1818/10 ∧
    ¬(BPMDetector.autocorrelationBPM (List.replicate 10 (0:ℚ)) ≤ 180) := by
  have h := BPMDetector.autocorrelationBPM_silent (List.replicate 10 0)
    (fun x hx => List.eq_of_mem_replicate hx)
  exact ⟨h, by rw [h]; norm_num⟩

namespace BPMDetector

/-- Helper: a buffer shorter than one frame yields a negative numFrames. -/
theorem numFrames_neg {len sampleRate : ℕ} (hh : 0 < hopSize sampleRate)
    (hl : len < frameSize sampleRate) : numFrames len sampleRate < 0 := by
  unfold numFrames
  apply Int.fdiv_neg'
  · have hc : (len : ℤ) < (frameSize sampleRate : ℤ) := by exact_mod_cast hl
    omega
  · exact_mod_cast hh

/-- Helper: a buffer of at least one frame yields a nonnegative numFrames. -/
theorem numFrames_nonneg {len sampleRate : ℕ}
    (hl : frameSize sampleRate ≤ len) : 0 ≤ numFrames len sampleRate := by
  unfold numFrames
  apply Int.fdiv_nonneg
  · have hc : (frameSize sampleRate : ℤ) ≤ (len : ℤ) := by exact_mod_cast hl
    omega
  · exact Int.natCast_nonneg _

/-- Helper: the high-pass stage maps an all-zero input (with zero filter
state) to an all-zero output. -/
theorem highPassList_zero (alphaHigh : ℝ) :
    ∀ samples : List ℝ, (∀ x ∈ samples, x = 0) →
      ∀ y ∈ highPassList alphaHigh 0 0 samples, y = 0 := by
  intro samples
  induction samples with
  | nil =>
    intro _ y hy
    simp [highPassList] at hy
  | cons a t ih =>
    intro h y hy
    have ha : a = 0 := h a (List.mem_cons_self a t)
    subst ha
    simp only [highPassList, add_zero, sub_zero, mul_zero] at hy
    rcases List.mem_cons.mp hy with h1 | h1
    · exact h1
    · exact ih (fun x hx => h x (List.mem_cons_of_mem _ hx)) y h1

/-- Helper: the low-pass stage maps an all-zero input (with zero filter
state) to an all-zero output. -/
theorem lowPassList_zero (alphaLow : ℝ) :
    ∀ samples : List ℝ, (∀ x ∈ samples, x = 0) →
      ∀ y ∈ lowPassList alphaLow 0 samples, y = 0 := by
  intro samples
  induction samples with
  | nil =>
    intro _ y hy
    simp [lowPassList] at hy
  | cons a t ih =>
    intro h y hy
    have ha : a = 0 := h a (List.mem_cons_self a t)
    subst ha
    simp only [lowPassList, zero_add, sub_zero, mul_zero, add_zero] at hy
    rcases List.mem_cons.mp hy with h1 | h1
    · exact h1
    · exact ih (fun x hx => h x (List.mem_cons_of_mem _ hx)) y h1

/-- Helper: filtering a silent buffer gives a silent buffer. -/
theorem bandpassFilter_zero (samples : List ℝ) (sampleRate : ℕ)
    (lowFreq highFreq : ℝ) (h : ∀ x ∈ samples, x = 0) :
    ∀ y ∈ bandpassFilter samples sampleRate lowFreq highFreq, y = 0 := by
  simp only [bandpassFilter]
  exact lowPassList_zero _ _ (highPassList_zero _ samples h)

/-- Helper: reading any index of an all-zero real list gives 0. -/
theorem getD_zero_real {l : List ℝ} (h : ∀ x ∈ l, x = 0) (i : ℕ) :
    l.getD i 0 = 0 := by
  rw [List.getD_eq_getElem?_getD]
  rcases hlt : l[i]? with _ | a
  · rfl
  · exact h a (List.getElem?_mem hlt)

/-- Helper: the energy envelope of silent filtered samples is all zeros. -/
theorem energyEnvelope_zero (filteredSamples : List ℝ) (n frameSz hop : ℕ)
    (h : ∀ x ∈ filteredSamples, x = 0) :
    ∀ y ∈ energyEnvelope filteredSamples n frameSz hop, y = 0 := by
  intro y hy
  simp only [energyEnvelope, List.mem_map] at hy
  obtain ⟨i, _, rfl⟩ := hy
  have hsum : ((List.range frameSz).map (fun j =>
      let sample := filteredSamples.getD (i * hop + j) 0
      sample * sample)).sum = 0 := by
    apply List.sum_eq_zero
    intro z hz
    simp only [List.mem_map] at hz
    obtain ⟨j, _, rfl⟩ := hz
    show filteredSamples.getD (i * hop + j) 0
      * filteredSamples.getD (i * hop + j) 0 = 0
    rw [getD_zero_real h]
    exact mul_zero 0
  rw [hsum, zero_div, Real.sqrt_zero]

/-- Helper: the onset of an all-zero envelope is all zeros. -/
theorem onsetOf_zero (envelope : List ℝ) (n : ℕ)
    (h : ∀ x ∈ envelope, x = 0) : ∀ y ∈ onsetOf envelope n, y = 0 := by
  intro y hy
  simp only [onsetOf, List.mem_map] at hy
  obtain ⟨i, _, rfl⟩ := hy
  by_cases hi : i = 0
  · simp [hi]
  · rw [if_neg hi]
    show (if 0 < envelope.getD i 0 - envelope.getD (i - 1) 0
      then envelope.getD i 0 - envelope.getD (i - 1) 0 else 0) = 0
    rw [getD_zero_real h, getD_zero_real h]
    norm_num

/-- Helper: the running maximum of an all-zero list, folded from 0, is 0. -/
theorem foldl_max_zero (l : List ℝ) (h : ∀ x ∈ l, x = 0) :
    l.foldl max 0 = 0 := by
  induction l with
  | nil => rfl
  | cons a t ih =>
    simp only [List.foldl_cons]
    rw [h a (List.mem_cons_self a t), max_self]
    exact ih (fun x hx => h x (List.mem_cons_of_mem a hx))

/-- Helper: normalising an all-zero onset leaves it all zero (the peak is 0,
so the positive-peak guard fails). -/
theorem normalizeOnset_zero (onset : List ℝ) (h : ∀ x ∈ onset, x = 0) :
    ∀ y ∈ normalizeOnset onset, y = 0 := by
  simp only [normalizeOnset]
  rw [foldl_max_zero onset h, if_neg (lt_irrefl 0)]
  exact h

/-- Helper: on a buffer shorter than one analysis frame, numFrames is
negative and calculateOnsetEnvelope throws the RangeError of
new Float32Array(numFrames). -/
theorem calculateOnsetEnvelope_raises (samples : List ℝ) (sampleRate : ℕ)
    (hh : 0 < hopSize sampleRate)
    (hl : samples.length < frameSize sampleRate) :
    calculateOnsetEnvelope samples sampleRate = .error .rangeError := by
  unfold calculateOnsetEnvelope
  rw [if_pos (numFrames_neg hh hl)]

/-- Helper: on a buffer of at least one frame, calculateOnsetEnvelope
returns an envelope. -/
theorem calculateOnsetEnvelope_returns (samples : List ℝ) (sampleRate : ℕ)
    (hl : frameSize sampleRate ≤ samples.length) :
    ∃ env, calculateOnsetEnvelope samples sampleRate = .ok env := by
  unfold calculateOnsetEnvelope
  rw [if_neg (not_lt.mpr (numFrames_nonneg hl))]
  exact ⟨_, rfl⟩

/-- Helper: the envelope computed from a silent buffer is all zeros (its
peak is 0). -/
theorem calculateOnsetEnvelope_silent (samples : List ℝ) (sampleRate : ℕ)
    (env : List ℝ) (h : ∀ x ∈ samples, x = 0)
    (he : calculateOnsetEnvelope samples sampleRate = .ok env) :
    ∀ x ∈ env, x = 0 := by
  unfold calculateOnsetEnvelope at he
  by_cases hn : numFrames samples.length sampleRate < 0
  · rw [if_pos hn] at he
    simp at he
  · rw [if_neg hn] at he
    simp only [Except.ok.injEq] at he
    subst he
    exact normalizeOnset_zero _
      (onsetOf_zero _ _
        (energyEnvelope_zero _ _ _ _
          (bandpassFilter_zero samples sampleRate 100 4000 h)))

end BPMDetector

/-- C6 (amended): BPM detection is not raise-free.  A buffer shorter than
one analysis frame makes calculateOnsetEnvelope compute a negative
numFrames, and new Float32Array(numFrames) throws a RangeError, so detect()
raises on too-short buffers; a buffer of at least one frame always yields an
onset envelope; a silent buffer yields an all-zero envelope (peak 0), and on
an all-zero envelope the returned BPM is 181.8 — the bpm of the first
candidate lag — not the fixed fallback 120 stated in the spec. -/
theorem bpm_failure_semantics :
    (∀ (samples : List ℝ) (sampleRate : ℕ),
      0 < BPMDetector.hopSize sampleRate →
      samples.length < BPMDetector.frameSize sampleRate →
      BPMDetector.calculateOnsetEnvelope samples sampleRate
        = .error .rangeError) ∧
    (∀ (samples : List ℝ) (sampleRate : ℕ),
      BPMDetector.frameSize sampleRate ≤ samples.length →
      ∃ env, BPMDetector.calculateOnsetEnvelope samples sampleRate
        = .ok env) ∧
    (∀ (samples : List ℝ) (sampleRate : ℕ) (env : List ℝ),
      (∀ x ∈ samples, x = 0) →
      BPMDetector.calculateOnsetEnvelope samples sampleRate = .ok env →
      ∀ x ∈ env, x = 0) ∧
    (∀ envelope : List ℚ, (∀ x ∈ envelope, x = 0) →
      BPMDetector.autocorrelationBPM envelope = 1818/10 ∧
      BPMDetector.autocorrelationBPM envelope ≠ 120) := by
  refine ⟨BPMDetector.calculateOnsetEnvelope_raises,
    BPMDetector.calculateOnsetEnvelope_returns,
    BPMDetector.calculateOnsetEnvelope_silent,
    fun envelope h => ?_⟩
  have he := BPMDetector.autocorrelationBPM_silent envelope h
  exact ⟨he, by rw [he]; norm_num⟩

/-- Witness for C6: a 50-sample silent buffer at 44100 Hz (frame size 440)
makes calculateOnsetEnvelope throw, and the silent 8-sample envelope gives
BPM 181.8. -/
theorem bpm_failure_semantics_witness :
    BPMDetector.calculateOnsetEnvelope (List.replicate 50 (0:ℝ)) 44100
      = .error .rangeError ∧
    BPMDetector.autocorrelationBPM (List.replicate 8 (0:ℚ)) = 1818/10 :=
  ⟨bpm_failure_semantics.1 (List.replicate 50 0) 44100 (by decide) (by decide),
   (bpm_failure_semantics.2.2.2 (List.replicate 8 0)
      (fun x hx => List.eq_of_mem_replicate hx)).1⟩

/-- Counterexample to C6 as stated: detect() is not exception-free — a
100-sample buffer at 44100 Hz is shorter than the 440-sample frame, so
calculateOnsetEnvelope throws a RangeError — and on a silent envelope the
returned BPM is 181.8, not the claimed fixed fallback 120. -/
theorem bpm_detect_counterexample :
    BPMDetector.calculateOnsetEnvelope (List.replicate 100 (0:ℝ)) 44100
      = .error .rangeError ∧
    BPMDetector.autocorrelationBPM (List.replicate 12 (0:ℚ)) ≠ 120 := by
  constructor
  · exact BPMDetector.calculateOnsetEnvelope_raises _ _ (by decide) (by decide)
  · have h := BPMDetector.autocorrelationBPM_silent (List.replicate 12 0)
      (fun x hx => List.eq_of_mem_replicate hx)
    rw [h]
    norm_num
